import Mathlib

/-!
Verification of the clickhouse-cache core (package sqlcache):
a keyed reader-writer lock with reference-counted reclamation
(keyrwlock.go, given as src/unnamed/part_000), a result-stream
recorder (recorder.go) and the cache-aside interceptor
(interceptor.go). Each Go component is shallowly embedded as pure
Lean definitions; the theorems below check the specification's
claims against them.
-/

namespace SqlCache

/-! ## Keyed reader-writer lock (KeyRWLock, src/unnamed/part_000)

The per-key state in the shared `sync.Map` is modelled, for one fixed
key, as `Option Int`: `none` when the map holds no entry for the key,
`some c` when it holds an entry whose `count` field is `c`.  Operations
on other keys never touch this entry (`LoadOrStore`/`Delete` are
per-key), so a single key's entry evolution is self-contained.  The
embedding is sequential: each acquire/release runs to completion with
no interleaving, so a CAS whose expected value was just read always
succeeds.  The underlying `sync.RWMutex` hold states are outside the
model; only the reference count and map membership are tracked. -/

/-- `KeyRWLock.RLock` for one key, as a function of the map entry for
that key.  `getKeyLock` resolves the entry (LoadOrStore creates a
fresh one with count 0 when absent); the loop observes `count`: when
it is `-1` the code recurses into `RLock` to re-resolve the key, which
sequentially resolves the same retired entry again and never returns
(modelled as `none`); otherwise the CAS from `count` to `count+1`
succeeds and the read mutex is taken.  Returns the entry state after a
successful acquisition. -/
def rlockAcquire : Option Int → Option (Option Int)
  | none => some (some 1)
  | some c => if c = -1 then none else some (some (c + 1))

/-- `KeyRWLock.Lock` for one key, as a function of the map entry for
that key.  The loop CASes `count` to `count+1` with no check against
the retired sentinel, then takes the write mutex; sequentially the
first CAS succeeds for every observed count, `-1` included. -/
def wlockAcquire : Option Int → Option Int
  | none => some 1
  | some c => some (c + 1)

/-- `KeyRWLock.RUnlock` for one key: re-resolve the entry (creating a
fresh count-0 entry when absent), atomically add `-1`, then CAS `0 →
-1`; when that CAS succeeds the entry is deleted from the map. -/
def runlockRelease : Option Int → Option Int
  | none => some (-1)
  | some c => if c - 1 = 0 then none else some (c - 1)

/-- `KeyRWLock.Unlock` for one key: identical reference-count and
map-removal logic as `RUnlock`, releasing the write mutex instead. -/
def wunlockRelease : Option Int → Option Int
  | none => some (-1)
  | some c => if c - 1 = 0 then none else some (c - 1)

/-- The four `KeyRWLock` operations on a single key. -/
inductive LockOp where
  | rlockOp
  | wlockOp
  | runlockOp
  | wunlockOp
  deriving DecidableEq

/-- One `KeyRWLock` call on the key's entry; `none` when the call
never returns (the `RLock` sentinel recursion, unreachable in
well-formed sequential use). -/
def lockOpStep (s : Option Int) : LockOp → Option (Option Int)
  | .rlockOp => rlockAcquire s
  | .wlockOp => some (wlockAcquire s)
  | .runlockOp => some (runlockRelease s)
  | .wunlockOp => some (wunlockRelease s)

/-- Run a sequence of `KeyRWLock` calls for the key from entry state
`s`. -/
def runLockOps : Option Int → List LockOp → Option (Option Int)
  | s, [] => some s
  | s, op :: ops =>
    match lockOpStep s op with
    | none => none
    | some s' => runLockOps s' ops

/-- Whether a `KeyRWLock` operation is an acquisition. -/
def isAcquire : LockOp → Bool
  | .rlockOp => true
  | .wlockOp => true
  | .runlockOp => false
  | .wunlockOp => false

/-- Number of acquisitions in a call sequence. -/
def acqCount : List LockOp → Nat
  | [] => 0
  | op :: ops => (if isAcquire op then 1 else 0) + acqCount ops

/-- Number of releases in a call sequence. -/
def relCount : List LockOp → Nat
  | [] => 0
  | op :: ops => (if isAcquire op then 0 else 1) + relCount ops

/-- The map entry encoding a live reference count of `c` holders:
absent at zero, present with count `c` otherwise. -/
def encodeCount (c : Nat) : Option Int :=
  if c = 0 then none else some (c : Int)

/-! ## Result stream recorder (rowsRecorder, recorder.go) -/

/-- Scalar driver values carried in a row (`driver.Value`). -/
abbrev Value := Int

/-- One result row (`[]driver.Value`). -/
abbrev Row := List Value

/-- Opaque Go error values. -/
abbrev Err := String

/-- `cache.Item`: the pending cache item with captured columns and
rows. -/
structure Item where
  cols : List String
  rows : List Row
  deriving DecidableEq

/-- Outcome of one underlying `driver.Rows.Next` call: a row written
into `dest` with nil error, `io.EOF`, or a non-EOF error. -/
inductive NextRes where
  | ok (row : Row)
  | eof
  | err (e : Err)
  deriving DecidableEq

/-- Outcome of the underlying `driver.Rows.Close` call. -/
inductive CloseRes where
  | ok
  | err (e : Err)
  deriving DecidableEq

/-- Terminal state of the underlying stream: clean end-of-stream or an
iteration error. -/
inductive Terminal where
  | eof
  | err (e : Err)
  deriving DecidableEq

/-- The `Next` outcome delivered by the underlying cursor at its
terminal state. -/
def termRes : Terminal → NextRes
  | .eof => .eof
  | .err e => .err e

/-- Mutable state of a `rowsRecorder`: the pending item's captured
columns and rows, the three flags, and the row cap. -/
structure RecState where
  itemCols : List String
  itemRows : List Row
  gotErr : Bool
  gotEOF : Bool
  maxRowsHit : Bool
  maxRows : Nat
  deriving DecidableEq

/-- `newRowsRecorder`: fresh recorder with an empty pending item and
row cap `m`. -/
def initRec (m : Nat) : RecState :=
  { itemCols := [], itemRows := [], gotErr := false, gotEOF := false
    maxRowsHit := false, maxRows := m }

/-- `rowsRecorder.Columns`: forwards to the underlying cursor
(returning `ucols`) and captures the column list into the pending
item. -/
def rcolumns (s : RecState) (ucols : List String) : RecState × List String :=
  ({ s with itemCols := ucols }, ucols)

/-- `rowsRecorder.Next`, as a function of the recorder state and the
underlying cursor's outcome `u` for this call: record a terminal
state, stop buffering once terminal or capped, mark the cap when the
pending item already holds `maxRows` rows, otherwise append a copy of
the row; the underlying outcome is returned unchanged on every path. -/
def rnext (s : RecState) (u : NextRes) : RecState × NextRes :=
  let s :=
    match u with
    | .eof => { s with gotEOF := true }
    | .err _ => { s with gotErr := true }
    | .ok _ => s
  if s.gotEOF || s.gotErr || s.maxRowsHit then
    (s, u)
  else if s.itemRows.length = s.maxRows then
    ({ s with maxRowsHit := true }, u)
  else
    match u with
    | .ok row => ({ s with itemRows := s.itemRows ++ [row] }, u)
    | _ => (s, u)

/-- Result of `rowsRecorder.Close`: the final state, the error
returned to the caller, the item passed to the setter when the commit
fires, and whether the `done` channel was closed (the completion
signal that releases the write hold). -/
structure CloseOut where
  state : RecState
  ret : Option Err
  committed : Option Item
  signaled : Bool
  deriving DecidableEq

/-- `rowsRecorder.Close`, as a function of the recorder state and the
underlying `Close` outcome: on an underlying close error, set `gotErr`
and return the error at once; otherwise commit the pending item
exactly when EOF was reached with no error and no cap hit, then close
the `done` channel. -/
def rclose (s : RecState) (u : CloseRes) : CloseOut :=
  match u with
  | .err e =>
    { state := { s with gotErr := true }, ret := some e
      committed := none, signaled := false }
  | .ok =>
    if s.gotEOF && !s.gotErr && !s.maxRowsHit then
      { state := s, ret := none
        committed := some { cols := s.itemCols, rows := s.itemRows }
        signaled := true }
    else
      { state := s, ret := none, committed := none, signaled := true }

/-- Run a sequence of `Next` calls, threading the recorder state. -/
def runNexts : RecState → List NextRes → RecState
  | s, [] => s
  | s, u :: us => runNexts (rnext s u).1 us

/-- The outcomes a caller receives from a sequence of `Next` calls. -/
def runNextsOut : RecState → List NextRes → List NextRes
  | _, [] => []
  | s, u :: us => (rnext s u).2 :: runNextsOut (rnext s u).1 us

/-! ## Cache-aside interceptor (interceptor.go)

`StmtQueryContext` and `ConnQueryContext` run the identical caching
protocol (they differ only in how the query is forwarded to the
underlying driver); one embedding covers both.  External collaborators
(the underlying driver, the cache backend's `Get`, the hash function,
`getAttrs`) are modelled by their outcomes for the one intercepted
call, supplied in an environment record. -/

/-- Opaque handle for a live `driver.Rows` stream returned by the
underlying driver. -/
abbrev RowsHandle := Nat

/-- Query attributes parsed out of the query text by `getAttrs`. -/
structure Attrs where
  ttl : Int
  maxRows : Nat
  deriving DecidableEq

/-- Outcome of one `cache.Cacher.Get` call: an error, a clean miss, or
a hit carrying the stored item. -/
inductive GetOutcome where
  | err (e : Err)
  | notFound
  | found (it : Item)
  deriving DecidableEq

/-- Deltas to the interceptor's three atomic counters. -/
structure Stats where
  hits : Nat
  misses : Nat
  errors : Nat
  deriving DecidableEq

/-- Sum of two counter deltas. -/
def addStats (a b : Stats) : Stats :=
  { hits := a.hits + b.hits, misses := a.misses + b.misses
    errors := a.errors + b.errors }

/-- `Interceptor.checkCache` for one `Get` outcome: first component is
the cached rows returned (`none` models the Go `nil`), second the
counter deltas, third whether the `onErr` hook fires (when
configured). -/
def checkCache (g : GetOutcome) : Option Item × Stats × Bool :=
  match g with
  | .err _ => (none, { hits := 0, misses := 0, errors := 1 }, true)
  | .notFound => (none, { hits := 0, misses := 1, errors := 0 }, false)
  | .found it => (some it, { hits := 1, misses := 0, errors := 0 }, false)

/-- Observable events of one intercepted query call, in program
order.  `setEv` would mark a `cache.Cacher.Set` call; within
`StmtQueryContext`/`ConnQueryContext` the setter is only captured in
the closure handed to the recorder, never invoked. -/
inductive Ev where
  | rlockEv
  | runlockEv
  | wlockEv
  | wunlockEv
  | execEv
  | setEv
  deriving DecidableEq

deriving instance DecidableEq for Except

/-- What the intercepted call returns to `database/sql`: the raw
driver outcome on a bypass, a `rowsCached` replay on a hit, a
recorder-wrapped live stream on a miss, or the propagated execution
error. -/
inductive QueryResult where
  | uncached (r : Except Err RowsHandle)
  | hit (it : Item)
  | recorded (rows : RowsHandle) (maxRows : Nat)
  | failed (e : Err)
  deriving DecidableEq

/-- Environment of one intercepted query call: the interceptor's
`disabled` flag and `onErr` configuration, and the outcomes of each
external call the protocol can make. -/
structure Env where
  disabled : Bool
  hasOnErr : Bool
  attrs : Option Attrs
  hashResult : Except Err String
  cacheGet1 : GetOutcome
  cacheGet2 : GetOutcome
  execResult : Except Err RowsHandle

/-- Output of one intercepted query call: the returned value, the
counter deltas, the number of `onErr` invocations, and the event
trace.  `holdsWrite` records that the call returned while the write
hold was still held (released later by the `done`-channel waiter). -/
structure QCOutput where
  result : QueryResult
  stats : Stats
  hooks : Nat
  events : List Ev
  holdsWrite : Bool
  deriving DecidableEq

/-- `Interceptor.StmtQueryContext` (and the identical
`ConnQueryContext`): bypass when disabled or when `getAttrs` yields no
directive; on hash failure count the error, fire the hook and execute
uncached; otherwise read-lock, check the cache, on miss upgrade to the
write lock and double-check, and on a second miss execute, unlocking
on execution error, else returning the recorder-wrapped stream with
the write hold parked on the `done` channel. -/
def stmtQueryContext (env : Env) : QCOutput :=
  if env.disabled then
    { result := .uncached env.execResult
      stats := { hits := 0, misses := 0, errors := 0 }
      hooks := 0, events := [.execEv], holdsWrite := false }
  else
    match env.attrs with
    | none =>
      { result := .uncached env.execResult
        stats := { hits := 0, misses := 0, errors := 0 }
        hooks := 0, events := [.execEv], holdsWrite := false }
    | some attrs =>
      match env.hashResult with
      | .error _ =>
        { result := .uncached env.execResult
          stats := { hits := 0, misses := 0, errors := 1 }
          hooks := if env.hasOnErr then 1 else 0
          events := [.execEv], holdsWrite := false }
      | .ok _ =>
        let c1 := checkCache env.cacheGet1
        match c1.1 with
        | some it =>
          { result := .hit it, stats := c1.2.1
            hooks := if env.hasOnErr && c1.2.2 then 1 else 0
            events := [.rlockEv, .runlockEv], holdsWrite := false }
        | none =>
          let c2 := checkCache env.cacheGet2
          match c2.1 with
          | some it =>
            { result := .hit it, stats := addStats c1.2.1 c2.2.1
              hooks :=
                (if env.hasOnErr && c1.2.2 then 1 else 0) +
                  (if env.hasOnErr && c2.2.2 then 1 else 0)
              events := [.rlockEv, .runlockEv, .wlockEv, .wunlockEv]
              holdsWrite := false }
          | none =>
            match env.execResult with
            | .error e =>
              { result := .failed e, stats := addStats c1.2.1 c2.2.1
                hooks :=
                  (if env.hasOnErr && c1.2.2 then 1 else 0) +
                    (if env.hasOnErr && c2.2.2 then 1 else 0)
                events := [.rlockEv, .runlockEv, .wlockEv, .execEv, .wunlockEv]
                holdsWrite := false }
            | .ok rows =>
              { result := .recorded rows attrs.maxRows
                stats := addStats c1.2.1 c2.2.1
                hooks :=
                  (if env.hasOnErr && c1.2.2 then 1 else 0) +
                    (if env.hasOnErr && c2.2.2 then 1 else 0)
                events := [.rlockEv, .runlockEv, .wlockEv, .execEv]
                holdsWrite := true }

/-- `Config` handed to `NewInterceptor`; the backend cache, the error
hook and the hash function are modelled by opaque handles, `none`
standing for a nil field. -/
structure ConfigM where
  cache : Option Nat
  onError : Option Nat
  hashFunc : Option Nat
  deriving DecidableEq

/-- The interceptor's hash function after construction: the package
default or the user-supplied one. -/
inductive HashChoice where
  | defaultHash
  | custom (f : Nat)
  deriving DecidableEq

/-- The `Interceptor` fields fixed by `NewInterceptor`. -/
structure InterceptorM where
  c : Nat
  hashFunc : HashChoice
  onErr : Option Nat
  stats : Stats
  disabled : Bool
  deriving DecidableEq

/-- `NewInterceptor`: reject a nil config or a nil `Cache`, substitute
`defaultHashFunc` when no `HashFunc` was supplied, and return the
interceptor with zero stats and `disabled = false`. -/
def newInterceptor (config : Option ConfigM) : Except Err InterceptorM :=
  match config with
  | none => .error "config cannot be nil"
  | some cfg =>
    match cfg.cache with
    | none => .error "cache must be set in Config"
    | some c =>
      .ok
        { c := c
          hashFunc :=
            match cfg.hashFunc with
            | none => .defaultHash
            | some f => .custom f
          onErr := cfg.onError
          stats := { hits := 0, misses := 0, errors := 0 }
          disabled := false }

/-- Whether a `NewInterceptor` outcome is the error case. -/
def isError : Except Err InterceptorM → Bool
  | .error _ => true
  | .ok _ => false

/-- A full consumption of a recorded stream: the caller fetches the
columns, calls `Next` once per row yielded by the underlying cursor,
once more receiving the terminal outcome `t`, then calls `Close`,
whose underlying close outcome is `c`. -/
def fullRun (m : Nat) (cols : List String) (rs : List Row) (t : Terminal)
    (c : CloseRes) : CloseOut :=
  rclose (runNexts (rcolumns (initRec m) cols).1 (rs.map .ok ++ [termRes t])) c

/-- A call sequence is balanced from `c` outstanding holds when every
release has a matching earlier acquire and the sequence ends with no
outstanding hold. -/
def balancedFrom : Nat → List LockOp → Bool
  | c, [] => c = 0
  | c, op :: ops =>
    if isAcquire op then balancedFrom (c + 1) ops
    else decide (1 ≤ c) && balancedFrom (c - 1) ops

/-- Whether a `Get` outcome makes `checkCache` report a miss (return
nil rows): a backend error or a clean not-found. -/
def missedCache : GetOutcome → Bool
  | .found _ => false
  | .err _ => true
  | .notFound => true

/-! ## Helper lemmas -/

/-- `checkCache` returns nil rows exactly on the missed outcomes. -/
lemma checkCache_fst_eq_none (g : GetOutcome) (h : missedCache g = true) :
    (checkCache g).1 = none := by
  cases g with
  | found it => simp [missedCache] at h
  | err e => rfl
  | notFound => rfl

/-- `rowsRecorder.Next` returns the underlying outcome on every
path. -/
lemma rnext_snd (s : RecState) (u : NextRes) : (rnext s u).2 = u := by
  cases u <;> simp only [rnext] <;> (repeat' split) <;> rfl

/-- The caller observes exactly the underlying outcomes across any
sequence of `Next` calls. -/
lemma runNextsOut_id (s : RecState) (us : List NextRes) :
    runNextsOut s us = us := by
  induction us generalizing s with
  | nil => rfl
  | cons u us ih => simp [runNextsOut, rnext_snd, ih]

/-- Running `Next` over a concatenation threads the state. -/
lemma runNexts_append (s : RecState) (xs ys : List NextRes) :
    runNexts s (xs ++ ys) = runNexts (runNexts s xs) ys := by
  induction xs generalizing s with
  | nil => rfl
  | cons x xs ih => simp [runNexts, ih]

/-- Once the cap is hit, further row deliveries leave the recorder
state unchanged. -/
lemma runNexts_ok_capped (rs : List Row) (s : RecState)
    (h : s.maxRowsHit = true) : runNexts s (rs.map .ok) = s := by
  induction rs with
  | nil => rfl
  | cons r rs ih => simp [runNexts, rnext, h, ih]

/-- Row deliveries that stay within the cap are all buffered in
order and the cap flag stays clear. -/
lemma runNexts_ok_under_cap (rs : List Row) (cols : List String)
    (acc : List Row) (m : Nat) (hlen : acc.length + rs.length ≤ m) :
    runNexts
        { itemCols := cols, itemRows := acc, gotErr := false
          gotEOF := false, maxRowsHit := false, maxRows := m }
        (rs.map .ok) =
      { itemCols := cols, itemRows := acc ++ rs, gotErr := false
        gotEOF := false, maxRowsHit := false, maxRows := m } := by
  induction rs generalizing acc with
  | nil => simp [runNexts]
  | cons r rs ih =>
    have hne : acc.length ≠ m := by simp at hlen; omega
    have hstep := ih (acc ++ [r]) (by simp at hlen ⊢; omega)
    simp [runNexts, rnext, hne] at hstep ⊢
    exact hstep

/-- Row deliveries that overflow the cap buffer exactly the first
`m - acc.length` rows and set the cap flag. -/
lemma runNexts_ok_over_cap (rs : List Row) (cols : List String)
    (acc : List Row) (m : Nat) (hacc : acc.length ≤ m)
    (hover : m < acc.length + rs.length) :
    runNexts
        { itemCols := cols, itemRows := acc, gotErr := false
          gotEOF := false, maxRowsHit := false, maxRows := m }
        (rs.map .ok) =
      { itemCols := cols, itemRows := acc ++ rs.take (m - acc.length)
        gotErr := false, gotEOF := false, maxRowsHit := true
        maxRows := m } := by
  induction rs generalizing acc with
  | nil => simp at hover; omega
  | cons r rs ih =>
    by_cases hm : acc.length = m
    · have hcap :
          runNexts
              { itemCols := cols, itemRows := acc, gotErr := false
                gotEOF := false, maxRowsHit := true, maxRows := m }
              (rs.map .ok) =
            { itemCols := cols, itemRows := acc, gotErr := false
              gotEOF := false, maxRowsHit := true, maxRows := m } :=
        runNexts_ok_capped rs _ rfl
      simp [runNexts, rnext, hm] at hcap ⊢
      exact hcap
    · have hstep := ih (acc ++ [r]) (by simp; omega) (by simp at hover ⊢; omega)
      have htake : m - acc.length = (m - (acc.length + 1)) + 1 := by omega
      simp [runNexts, rnext, hm, htake, List.take_succ_cons] at hstep ⊢
      exact hstep

/-- A terminal `Next` outcome only records the matching flag. -/
lemma rnext_terminal (s : RecState) (t : Terminal) :
    (rnext s (termRes t)).1 =
      (match t with
        | .eof => { s with gotEOF := true }
        | .err _ => { s with gotErr := true }) := by
  cases t <;> simp [rnext, termRes]

/-- A balanced call sequence run from `c` outstanding holds terminates
with the entry absent. -/
lemma runLockOps_balancedFrom (ops : List LockOp) :
    ∀ c : Nat, balancedFrom c ops = true →
      runLockOps (encodeCount c) ops = some none := by
  induction ops with
  | nil =>
    intro c hc
    simp [balancedFrom] at hc
    simp [runLockOps, encodeCount, hc]
  | cons op ops ih =>
    intro c hc
    cases op with
    | rlockOp =>
      simp [balancedFrom, isAcquire] at hc
      have hstep :
          lockOpStep (encodeCount c) .rlockOp = some (encodeCount (c + 1)) := by
        by_cases h0 : c = 0
        · simp [lockOpStep, rlockAcquire, encodeCount, h0]
        · have : ((c : Int)) ≠ -1 := by omega
          simp [lockOpStep, rlockAcquire, encodeCount, h0, this]
      simp [runLockOps, hstep]
      exact ih (c + 1) hc
    | wlockOp =>
      simp [balancedFrom, isAcquire] at hc
      have hstep :
          lockOpStep (encodeCount c) .wlockOp = some (encodeCount (c + 1)) := by
        by_cases h0 : c = 0
        · simp [lockOpStep, wlockAcquire, encodeCount, h0]
        · simp [lockOpStep, wlockAcquire, encodeCount, h0]
      simp [runLockOps, hstep]
      exact ih (c + 1) hc
    | runlockOp =>
      simp [balancedFrom, isAcquire] at hc
      obtain ⟨hc1, hrest⟩ := hc
      have hstep :
          lockOpStep (encodeCount c) .runlockOp = some (encodeCount (c - 1)) := by
        have h0 : c ≠ 0 := by omega
        by_cases h1 : c = 1
        · simp [lockOpStep, runlockRelease, encodeCount, h0, h1]
        · have hne : ((c : Int)) - 1 ≠ 0 := by omega
          have hne2 : c - 1 ≠ 0 := by omega
          simp [lockOpStep, runlockRelease, encodeCount, h0, hne, hne2]
          omega
      simp [runLockOps, hstep]
      exact ih (c - 1) hrest
    | wunlockOp =>
      simp [balancedFrom, isAcquire] at hc
      obtain ⟨hc1, hrest⟩ := hc
      have hstep :
          lockOpStep (encodeCount c) .wunlockOp = some (encodeCount (c - 1)) := by
        have h0 : c ≠ 0 := by omega
        by_cases h1 : c = 1
        · simp [lockOpStep, wunlockRelease, encodeCount, h0, h1]
        · have hne : ((c : Int)) - 1 ≠ 0 := by omega
          have hne2 : c - 1 ≠ 0 := by omega
          simp [lockOpStep, wunlockRelease, encodeCount, h0, hne, hne2]
          omega
      simp [runLockOps, hstep]
      exact ih (c - 1) hrest

/-! ## Claim theorems -/

/-- Claim C1 (code bug in `rowsRecorder.Close`): when the underlying
cursor close fails, `Close` returns the error immediately and never
closes the `done` channel — the completion signal does not fire on
this path, so the write hold for the key is never released,
contradicting the claim that the signal fires exactly once on every
code path through `Close`. -/
theorem rclose_error_path_never_signals (s : RecState) (e : Err) :
    (rclose s (.err e)).signaled = false ∧
    (rclose s (.err e)).ret = some e ∧
    (rclose s (.err e)).committed = none :=
  ⟨rfl, rfl, rfl⟩

/-- Claim C1 witness: evaluated at the state of a cleanly consumed
stream whose underlying close then fails. -/
theorem rclose_error_path_never_signals_witness :
    (rclose
        { itemCols := ["a"], itemRows := [[1]], gotErr := false
          gotEOF := true, maxRowsHit := false, maxRows := 10 }
        (.err "close failed")).signaled = false ∧
    (rclose
        { itemCols := ["a"], itemRows := [[1]], gotErr := false
          gotEOF := true, maxRowsHit := false, maxRows := 10 }
        (.err "close failed")).ret = some "close failed" ∧
    (rclose
        { itemCols := ["a"], itemRows := [[1]], gotErr := false
          gotEOF := true, maxRowsHit := false, maxRows := 10 }
        (.err "close failed")).committed = none :=
  rclose_error_path_never_signals
    { itemCols := ["a"], itemRows := [[1]], gotErr := false
      gotEOF := true, maxRowsHit := false, maxRows := 10 }
    "close failed"

/-- Claim C2 (code bug in `KeyRWLock.Lock`): the write-acquire CAS
loop has no retired-sentinel check, so an acquirer that observes the
count `-1` succeeds by CASing it to `0` and takes the mutex on the
retired entry, whereas `RLock` observing `-1` discards the entry and
re-resolves the key as the claim demands for both. -/
theorem wlock_accepts_retired_sentinel :
    wlockAcquire (some (-1)) = some 0 ∧ rlockAcquire (some (-1)) = none := by
  decide

/-- Claim C3 counterexample: a request that misses both the read-hold
check and the write-hold double-check increments the miss counter
twice, not exactly once, because `checkCache` adds one on each
not-found `Get`. -/
theorem double_miss_single_increment_false :
    ¬ ((stmtQueryContext
        { disabled := false, hasOnErr := false
          attrs := some { ttl := 1, maxRows := 5 }
          hashResult := .ok "k", cacheGet1 := .notFound
          cacheGet2 := .notFound, execResult := .ok 3 }).stats.misses = 1) ∧
    (stmtQueryContext
        { disabled := false, hasOnErr := false
          attrs := some { ttl := 1, maxRows := 5 }
          hashResult := .ok "k", cacheGet1 := .notFound
          cacheGet2 := .notFound, execResult := .ok 3 }).stats.misses = 2 := by
  decide

/-- Claim C3 amended: for every intercepted query whose key misses the
cache in both the read-hold check and the write-hold double-check, the
miss counter is incremented exactly twice — once per missed check —
before delegating to the execution path. -/
theorem double_miss_increments_misses_twice (env : Env) (a : Attrs)
    (k : String) (hdis : env.disabled = false)
    (hattrs : env.attrs = some a) (hhash : env.hashResult = .ok k)
    (h1 : env.cacheGet1 = .notFound) (h2 : env.cacheGet2 = .notFound) :
    (stmtQueryContext env).stats.misses = 2 ∧
    Ev.execEv ∈ (stmtQueryContext env).events := by
  cases hexec : env.execResult <;>
    simp [stmtQueryContext, checkCache, addStats, hdis, hattrs, hhash, h1,
      h2, hexec]

/-- Claim C3 witness for the amended statement. -/
theorem double_miss_increments_misses_twice_witness :
    (stmtQueryContext
        { disabled := false, hasOnErr := false
          attrs := some { ttl := 1, maxRows := 5 }
          hashResult := .ok "k3", cacheGet1 := .notFound
          cacheGet2 := .notFound, execResult := .ok 3 }).stats.misses = 2 ∧
    Ev.execEv ∈
      (stmtQueryContext
        { disabled := false, hasOnErr := false
          attrs := some { ttl := 1, maxRows := 5 }
          hashResult := .ok "k3", cacheGet1 := .notFound
          cacheGet2 := .notFound, execResult := .ok 3 }).events :=
  double_miss_increments_misses_twice _ { ttl := 1, maxRows := 5 } "k3"
    rfl rfl rfl rfl rfl

/-- Claim C6: when the execution path fails after the write hold was
taken (both cache checks returned nil), the error is propagated
verbatim, the write hold is released before returning (the unlock
event follows the exec event in the trace and the call does not retain
the hold), and no cache `Set` is invoked for the attempt. -/
theorem exec_error_releases_hold_no_set (env : Env) (a : Attrs)
    (k : String) (e : Err) (hdis : env.disabled = false)
    (hattrs : env.attrs = some a) (hhash : env.hashResult = .ok k)
    (h1 : missedCache env.cacheGet1 = true)
    (h2 : missedCache env.cacheGet2 = true)
    (hexec : env.execResult = .error e) :
    (stmtQueryContext env).result = .failed e ∧
    (stmtQueryContext env).events =
      [Ev.rlockEv, Ev.runlockEv, Ev.wlockEv, Ev.execEv, Ev.wunlockEv] ∧
    Ev.setEv ∉ (stmtQueryContext env).events ∧
    (stmtQueryContext env).holdsWrite = false := by
  have h1' := checkCache_fst_eq_none _ h1
  have h2' := checkCache_fst_eq_none _ h2
  simp [stmtQueryContext, hdis, hattrs, hhash, hexec, h1', h2']

/-- Claim C6 witness. -/
theorem exec_error_releases_hold_no_set_witness :
    (stmtQueryContext
        { disabled := false, hasOnErr := false
          attrs := some { ttl := 2, maxRows := 4 }
          hashResult := .ok "k6", cacheGet1 := .notFound
          cacheGet2 := .notFound
          execResult := .error "exec down" }).result = .failed "exec down" ∧
    (stmtQueryContext
        { disabled := false, hasOnErr := false
          attrs := some { ttl := 2, maxRows := 4 }
          hashResult := .ok "k6", cacheGet1 := .notFound
          cacheGet2 := .notFound, execResult := .error "exec down" }).events =
      [Ev.rlockEv, Ev.runlockEv, Ev.wlockEv, Ev.execEv, Ev.wunlockEv] ∧
    Ev.setEv ∉
      (stmtQueryContext
        { disabled := false, hasOnErr := false
          attrs := some { ttl := 2, maxRows := 4 }
          hashResult := .ok "k6", cacheGet1 := .notFound
          cacheGet2 := .notFound, execResult := .error "exec down" }).events ∧
    (stmtQueryContext
        { disabled := false, hasOnErr := false
          attrs := some { ttl := 2, maxRows := 4 }
          hashResult := .ok "k6", cacheGet1 := .notFound
          cacheGet2 := .notFound
          execResult := .error "exec down" }).holdsWrite = false :=
  exec_error_releases_hold_no_set _ { ttl := 2, maxRows := 4 } "k6"
    "exec down" rfl rfl rfl rfl rfl rfl

/-- Claim C7: when the hash function fails, the error counter is
incremented by exactly one, the error hook fires exactly when
configured, and the query is still executed uncached with the driver
outcome returned to the caller. -/
theorem hash_error_bypass_counts_once (env : Env) (a : Attrs) (e : Err)
    (hdis : env.disabled = false) (hattrs : env.attrs = some a)
    (hhash : env.hashResult = .error e) :
    (stmtQueryContext env).stats = { hits := 0, misses := 0, errors := 1 } ∧
    (stmtQueryContext env).hooks = (if env.hasOnErr then 1 else 0) ∧
    (stmtQueryContext env).result = .uncached env.execResult ∧
    Ev.execEv ∈ (stmtQueryContext env).events := by
  simp [stmtQueryContext, hdis, hattrs, hhash]

/-- Claim C7 witness. -/
theorem hash_error_bypass_counts_once_witness :
    (stmtQueryContext
        { disabled := false, hasOnErr := true
          attrs := some { ttl := 5, maxRows := 10 }
          hashResult := .error "hash boom", cacheGet1 := .notFound
          cacheGet2 := .notFound, execResult := .ok 7 }).stats =
      { hits := 0, misses := 0, errors := 1 } ∧
    (stmtQueryContext
        { disabled := false, hasOnErr := true
          attrs := some { ttl := 5, maxRows := 10 }
          hashResult := .error "hash boom", cacheGet1 := .notFound
          cacheGet2 := .notFound, execResult := .ok 7 }).hooks =
      (if ({ disabled := false, hasOnErr := true
             attrs := some { ttl := 5, maxRows := 10 }
             hashResult := .error "hash boom", cacheGet1 := .notFound
             cacheGet2 := .notFound, execResult := .ok 7 } : Env).hasOnErr
        then 1 else 0) ∧
    (stmtQueryContext
        { disabled := false, hasOnErr := true
          attrs := some { ttl := 5, maxRows := 10 }
          hashResult := .error "hash boom", cacheGet1 := .notFound
          cacheGet2 := .notFound, execResult := .ok 7 }).result =
      .uncached (Except.ok 7) ∧
    Ev.execEv ∈
      (stmtQueryContext
        { disabled := false, hasOnErr := true
          attrs := some { ttl := 5, maxRows := 10 }
          hashResult := .error "hash boom", cacheGet1 := .notFound
          cacheGet2 := .notFound, execResult := .ok 7 }).events :=
  hash_error_bypass_counts_once _ { ttl := 5, maxRows := 10 } "hash boom"
    rfl rfl rfl

/-- Claim C8: any same-key call sequence in which every release has a
matching earlier acquire and the counts balance leaves the per-key map
with no entry for the key after the final release. -/
theorem balanced_ops_leave_no_entry (ops : List LockOp)
    (h : balancedFrom 0 ops = true) :
    runLockOps none ops = some none := by
  have hrun := runLockOps_balancedFrom ops 0 h
  simpa [encodeCount] using hrun

/-- Claim C8 witness: the balanced sequence exercised by the
repository's unit test on one key. -/
theorem balanced_ops_leave_no_entry_witness :
    balancedFrom 0
        [LockOp.rlockOp, LockOp.rlockOp, LockOp.runlockOp, LockOp.runlockOp,
          LockOp.wlockOp, LockOp.wunlockOp] = true ∧
    runLockOps none
        [LockOp.rlockOp, LockOp.rlockOp, LockOp.runlockOp, LockOp.runlockOp,
          LockOp.wlockOp, LockOp.wunlockOp] = some none :=
  ⟨by decide, balanced_ops_leave_no_entry _ (by decide)⟩

/-- Claim C9: `rowsRecorder.Next` returns to the caller exactly the
underlying cursor outcome for that call, whatever the buffering
decision or previously recorded terminal state. -/
theorem next_forwards_underlying_outcome (s : RecState) (u : NextRes) :
    (rnext s u).2 = u :=
  rnext_snd s u

/-- Claim C10: `NewInterceptor` fails exactly on a nil config or a nil
`Cache` field, and every successful construction yields an enabled
interceptor whose hash function is the default exactly when none was
supplied. -/
theorem newInterceptor_validates_config :
    isError (newInterceptor none) = true ∧
    (∀ c : ConfigM, isError (newInterceptor (some c)) = true ↔ c.cache = none) ∧
    (∀ c i, newInterceptor (some c) = .ok i →
      i.disabled = false ∧
      i.hashFunc =
        (match c.hashFunc with
          | none => HashChoice.defaultHash
          | some f => HashChoice.custom f)) := by
  refine ⟨rfl, ?_, ?_⟩
  · intro c
    cases hc : c.cache <;> simp [newInterceptor, isError, hc]
  · intro c i hok
    cases hc : c.cache with
    | none => simp [newInterceptor, hc] at hok
    | some v =>
      simp [newInterceptor, hc] at hok
      subst hok
      exact ⟨rfl, rfl⟩

/-- Claim C10 witness: a config with a cache and no hash function
yields an enabled interceptor using the default hash. -/
theorem newInterceptor_validates_config_witness :
    ({ c := 1, hashFunc := HashChoice.defaultHash, onErr := none
       stats := { hits := 0, misses := 0, errors := 0 }
       disabled := false } : InterceptorM).disabled = false ∧
    ({ c := 1, hashFunc := HashChoice.defaultHash, onErr := none
       stats := { hits := 0, misses := 0, errors := 0 }
       disabled := false } : InterceptorM).hashFunc =
      HashChoice.defaultHash :=
  newInterceptor_validates_config.2.2
    { cache := some 1, onError := none, hashFunc := none } _ rfl

/-- Claim C4: over a full consumption of a recorded stream, `Close`
commits the pending item via the setter exactly when the underlying
close succeeded, the stream ended in a clean end-of-stream and the row
count stayed within the cap; a committed item carries exactly the
streamed columns and rows in order. -/
theorem clean_run_commit_iff (m : Nat) (cols : List String) (rs : List Row)
    (t : Terminal) (c : CloseRes) :
    ((fullRun m cols rs t c).committed ≠ none ↔
      c = CloseRes.ok ∧ t = Terminal.eof ∧ rs.length ≤ m) ∧
    (∀ it, (fullRun m cols rs t c).committed = some it →
      it.cols = cols ∧ it.rows = rs) := by
  have hcols : (rcolumns (initRec m) cols).1 =
      { itemCols := cols, itemRows := [], gotErr := false, gotEOF := false
        maxRowsHit := false, maxRows := m } := rfl
  unfold fullRun
  rw [hcols, runNexts_append]
  by_cases hle : rs.length ≤ m
  · rw [runNexts_ok_under_cap rs cols [] m (by simpa using hle)]
    cases t <;> cases c <;>
      simp [runNexts, rnext, termRes, rclose, hle]
  · rw [runNexts_ok_over_cap rs cols [] m (Nat.zero_le m) (by omega)]
    cases t <;> cases c <;>
      simp [runNexts, rnext, termRes, rclose, hle]

/-- Claim C4 witness: a two-row stream under a cap of ten, ending in a
clean EOF with a clean close, commits exactly the streamed columns and
rows. -/
theorem clean_run_commit_iff_witness :
    (fullRun 10 ["a", "b"] [[1, 2], [3, 4]] Terminal.eof
        CloseRes.ok).committed =
      some { cols := ["a", "b"], rows := [[1, 2], [3, 4]] } ∧
    ({ cols := ["a", "b"], rows := [[1, 2], [3, 4]] } : Item).cols =
      ["a", "b"] ∧
    ({ cols := ["a", "b"], rows := [[1, 2], [3, 4]] } : Item).rows =
      [[1, 2], [3, 4]] :=
  ⟨by decide,
   (clean_run_commit_iff 10 ["a", "b"] [[1, 2], [3, 4]] Terminal.eof
       CloseRes.ok).2
     { cols := ["a", "b"], rows := [[1, 2], [3, 4]] } (by decide)⟩

/-- Claim C5: when the underlying cursor yields more rows than the cap
`m`, no cache item is ever committed, while every row and the terminal
outcome are forwarded to the caller unchanged and the close outcome is
returned verbatim. -/
theorem row_cap_suppresses_commit (m : Nat) (cols : List String)
    (rs : List Row) (t : Terminal) (c : CloseRes) (hover : m < rs.length) :
    (fullRun m cols rs t c).committed = none ∧
    runNextsOut (rcolumns (initRec m) cols).1 (rs.map .ok ++ [termRes t]) =
      rs.map .ok ++ [termRes t] ∧
    (fullRun m cols rs t c).ret =
      (match c with | .ok => none | .err e => some e) := by
  have hcols : (rcolumns (initRec m) cols).1 =
      { itemCols := cols, itemRows := [], gotErr := false, gotEOF := false
        maxRowsHit := false, maxRows := m } := rfl
  refine ⟨?_, runNextsOut_id _ _, ?_⟩ <;>
  · unfold fullRun
    rw [hcols, runNexts_append,
      runNexts_ok_over_cap rs cols [] m (Nat.zero_le m) (by simpa using hover)]
    cases t <;> cases c <;> simp [runNexts, rnext, termRes, rclose]

/-- Claim C5 witness: a two-row stream against a cap of one. -/
theorem row_cap_suppresses_commit_witness :
    (1 : Nat) < ([[1], [2]] : List Row).length ∧
    (fullRun 1 ["a"] [[1], [2]] Terminal.eof CloseRes.ok).committed = none ∧
    runNextsOut (rcolumns (initRec 1) ["a"]).1
        (([[1], [2]] : List Row).map .ok ++ [termRes Terminal.eof]) =
      ([[1], [2]] : List Row).map .ok ++ [termRes Terminal.eof] ∧
    (fullRun 1 ["a"] [[1], [2]] Terminal.eof CloseRes.ok).ret =
      (match CloseRes.ok with | .ok => none | .err e => some e) :=
  ⟨by decide,
   row_cap_suppresses_commit 1 ["a"] [[1], [2]] Terminal.eof CloseRes.ok
     (by decide)⟩

end SqlCache
